import Mathlib

/-!
# Verification of the cortex plugin/scheduler core (`cortex/_lib/models.py`)

Shallow embedding of the plugin registry (`check_plugin`, `register_build`,
`register_routine`, `register_model`), the composition checker
(`ModelPluginBase.check`, `find_models`) and the per-step execution scheduler
(`ModelPluginBase.run_procedure`).

External collaborators that are not part of the source under verification
(torch tensors, the data handler, optimizers, the `parsing` helpers and the
`handlers` module) are modelled by abstract data: a tensor is an integer
payload with a `requiresGrad` flag, a scalar result carries an `isBad` flag
standing for not-a-number/infinite values, and attribute tables are functions
from attribute names to optional values.
-/

namespace Cortex

/-- Abstract tensor value: an integer payload plus the gradient-tracking flag.
`detach` produces the gradient-detached snapshot (`v.detach()` in torch). -/
structure TValue where
  val : Int
  requiresGrad : Bool
deriving Repr, DecidableEq

/-- `v.detach()`: same payload, gradient tracking dropped. -/
def TValue.detach (v : TValue) : TValue := ⟨v.val, false⟩

/-- A scalar result value.  `isBad` models a not-a-number or infinite value
(not representable over `Int`); it is what `bad_values` detects. -/
structure Scalar where
  val : Int
  isBad : Bool
deriving Repr, DecidableEq

/-! ## Generic association-list operations (Python dict/Handler accesses) -/

/-- Dict lookup: first binding of `k`. -/
def assocGet {α : Type} (l : List (String × α)) (k : String) : Option α :=
  (l.find? (fun kv => kv.1 == k)).map Prod.snd

/-- Dict assignment `d[k] = v`: replace in place if present, else append. -/
def assocSet {α : Type} (l : List (String × α)) (k : String) (v : α) :
    List (String × α) :=
  match l with
  | [] => [(k, v)]
  | (k', v') :: rest =>
    if k' = k then (k, v) :: rest else (k', v') :: assocSet rest k v

/-! ## Plugin registry (models.py lines 26-80)

A plugin is modelled by its static attribute table: `plugin_name`, the
Python attribute map (`attrs k = none` means `hasattr(plugin, k)` is false
and `getattr(plugin, k, None)` is `None`), and the `_protected` / `_required`
attribute-name lists that `check_plugin` consults.  The docstring/signature
introspection done by `parse_docstring` / `parse_kwargs` / `parse_header`
(the `parsing` module, not under verification) only derives help text and
declared parameters; it is modelled as total and does not affect the
registry table. -/

structure Plugin where
  plugin_name : Option String
  attrs : String → Option Int
  protectedAttrs : List String
  requiredAttrs : List String

/-- One kind's registry table (`_BUILD_PLUGINS`, `_ROUTINE_PLUGINS`,
`MODEL_PLUGINS`): an ordered mapping from `plugin_name` to plugin. -/
abbrev PluginTable := List (Option String × Plugin)

/-- `plugin.plugin_name in D` for a kind's table. -/
def tableHas (D : PluginTable) (name : Option String) : Bool :=
  D.any (fun kv => kv.1 = name)

/-- Registration failures of `check_plugin` (models.py:31-50). -/
inductive RegErr where
  | duplicateName (name : Option String) (kind : String)
  | protectedAttribute (k : String)
  | missingRequiredAttribute (k : String)
deriving Repr, DecidableEq

/-- `check_plugin(plugin, plugin_type_str, D)` (models.py:31-50).

Note the first branch of the source:
`if plugin.plugin_name is None: ValueError('Set plugin_name ...')`
constructs the `ValueError` without raising it, so a missing name never
fails the check; the constructed-and-discarded exception is mirrored by the
unused `let` below.  The final `setattr(plugin, k, v)` re-stores the value
`getattr` just returned, so it changes no state. -/
def check_plugin (p : Plugin) (kind : String) (D : PluginTable) :
    Except RegErr Unit :=
  let _unraisedValueError := p.plugin_name = none
  if tableHas D p.plugin_name then
    Except.error (RegErr.duplicateName p.plugin_name kind)
  else
    match p.protectedAttrs.find? (fun k => (p.attrs k).isSome) with
    | some k => Except.error (RegErr.protectedAttribute k)
    | none =>
      match p.requiredAttrs.find? (fun k => (p.attrs k).isNone) with
      | some k => Except.error (RegErr.missingRequiredAttribute k)
      | none => Except.ok ()

/-- `register_build(plugin)` (models.py:53-60): check, introspect help and
kwargs (external parsing, no registry effect), then store the plugin under
its name.  The returned table is the new `_BUILD_PLUGINS`; an error leaves
the global table untouched. -/
def register_build (p : Plugin) (D : PluginTable) : Except RegErr PluginTable :=
  match check_plugin p "build" D with
  | Except.error e => Except.error e
  | Except.ok _ => Except.ok (D ++ [(p.plugin_name, p)])

/-- `register_routine(plugin)` (models.py:63-70): same shape as
`register_build` against `_ROUTINE_PLUGINS`. -/
def register_routine (p : Plugin) (D : PluginTable) : Except RegErr PluginTable :=
  match check_plugin p "routine" D with
  | Except.error e => Except.error e
  | Except.ok _ => Except.ok (D ++ [(p.plugin_name, p)])

/-- `register_model(plugin)` (models.py:73-80): `_set_kwargs` merges default
kwargs inside the composition (no registry effect), then the same
check-and-store shape against `MODEL_PLUGINS`. -/
def register_model (p : Plugin) (D : PluginTable) : Except RegErr PluginTable :=
  match check_plugin p "model" D with
  | Except.error e => Except.error e
  | Except.ok _ => Except.ok (D ++ [(p.plugin_name, p)])

/-- The kind's table after a registration attempt: Python globals keep their
previous value when the registration function raises. -/
def tableAfterRegister (reg : Plugin → PluginTable → Except RegErr PluginTable)
    (p : Plugin) (D : PluginTable) : PluginTable :=
  match reg p D with
  | Except.ok D' => D'
  | Except.error _ => D

/-! ## Composition checking and discovery (models.py:249-260, 505-518) -/

/-- The composition state that `ModelPluginBase.check` examines: for each
attached routine and build, whether it is an instance of the expected plugin
base class (`isinstance(routine, RoutinePluginBase)` /
`isinstance(build, BuildPluginBase)`). -/
structure ModelPluginBase where
  routineIsPlugin : List (String × Bool)
  buildIsPlugin : List (String × Bool)
deriving Repr, DecidableEq

/-- `ModelPluginBase.check` (models.py:249-260): raise a bare `ValueError`
at the first attached routine that is not a `RoutinePluginBase`, then at the
first attached build that is not a `BuildPluginBase`. -/
def ModelPluginBase.check (m : ModelPluginBase) : Except Unit Unit :=
  if m.routineIsPlugin.all (fun kv => kv.2) then
    if m.buildIsPlugin.all (fun kv => kv.2) then Except.ok () else Except.error ()
  else Except.error ()

/-- The checking loop of `find_models` (models.py:509-518) over a snapshot of
the registered keys.  The source calls `v.check()` once OUTSIDE the
`try` block and then again inside it; the unprotected first call propagates
any check failure out of `find_models` (returned as `Except.error key`),
so the warn-and-pop branch of the `try` is only reached if the first call
already succeeded.  Warnings emitted by the protected branch are collected. -/
def checkModels (keys : List String) (table : List (String × ModelPluginBase))
    (warns : List String) :
    List String × Except String (List (String × ModelPluginBase)) :=
  match keys with
  | [] => (warns, Except.ok table)
  | k :: rest =>
    match assocGet table k with
    | none => checkModels rest table warns
    | some v =>
      match v.check with
      | Except.error _ => (warns, Except.error k)
      | Except.ok _ =>
        match v.check with
        | Except.error _ =>
          checkModels rest (table.filter (fun kv => kv.1 ≠ k))
            (warns ++ ["`" ++ k ++ "` checks failed."])
        | Except.ok _ => checkModels rest table warns

/-- `find_models` after the import phase (models.py:505-518): iterate the
check loop over the keys of `MODEL_PLUGINS`.  Module importing
(`import_directory`) is filesystem discovery, outside the verified core. -/
def find_models (table : List (String × ModelPluginBase)) :
    List String × Except String (List (String × ModelPluginBase)) :=
  checkModels (table.map Prod.fst) table []

/-! ## The ValuePool and input wiring (models.py:332-386)

The per-step `inputs` Handler maps string keys `"<source>.<field>"` to
values; it is created fresh at every `run_procedure` call and discarded at
the end of the step. -/

/-- A resolved send specification: `routine._names.get(k, k)` may yield a
single key or an ordered list of keys (models.py:361-368). -/
inductive Send where
  | single : String → Send
  | many : List String → Send
deriving Repr, DecidableEq

/-- The ValuePool keys a send specification names. -/
def Send.keys : Send → List String
  | Send.single s => [s]
  | Send.many l => l

/-- A wired routine input: a single value, an ordered sequence of values
(list requirement), or the explicit absent marker (`None`) that a missing
optional input is bound to (models.py:386). -/
inductive InVal where
  | one : TValue → InVal
  | seq : List TValue → InVal
  | absent : InVal
deriving Repr, DecidableEq

/-- The per-step ValuePool (`inputs` in `run_procedure`). -/
abbrev Pool := List (String × TValue)

/-- `inputs[s]` lookup. -/
def poolGet (pool : Pool) (k : String) : Option TValue := assocGet pool k

/-- `k in inputs`. -/
def poolHas (pool : Pool) (k : String) : Bool := (poolGet pool k).isSome

/-- `tuple(inputs.keys())`, reported by the missing-input error. -/
def poolKeys (pool : Pool) : List String := pool.map Prod.fst

/-- `[inputs[s] for s in send]` (models.py:365): ordered lookup of every key
of a list requirement, failing at the first absent key. -/
def seqLookup (pool : Pool) : List String → Option (List TValue)
  | [] => some []
  | s :: rest =>
    match poolGet pool s with
    | none => none
    | some v => (seqLookup pool rest).map (fun vs => v :: vs)

/-- Resolve one send specification against the pool (models.py:364-368):
a single key yields its value, a list of keys yields the ordered sequence
of their values; `none` when any named key is absent. -/
def resolveSend (pool : Pool) : Send → Option InVal
  | Send.single s => (poolGet pool s).map InVal.one
  | Send.many l => (seqLookup pool l).map InVal.seq

/-- `routine._names.get(k, k)` (models.py:361,377): the routine's name remap,
identity when no remap is declared for `k`. -/
def namesGet (names : List (String × Send)) (k : String) : Send :=
  match assocGet names k with
  | some s => s
  | none => Send.single k

/-- Step-fatal errors of `run_procedure`; each is a Python exception that
propagates to the caller. -/
inductive StepErr where
  /-- `KeyError('{} not found in inputs. Available: {}')` (models.py:369-373):
  carries the resolved send specification and the available pool keys. -/
  | missingInput (send : Send) (available : List String)
  /-- `KeyError('{} already in inputs ...')` (models.py:405-408). -/
  | duplicateOutputKey (key : String)
  /-- `routine(**kwargs)` (models.py:389) with non-empty kwargs:
  `RoutinePluginBase.__call__` (models.py:150) accepts no keyword
  parameters, so the call itself raises `TypeError`. -/
  | callTypeError (key : String)
  /-- `ValueError('Routine {} does not have run method set')`
  (models.py:144-147). -/
  | noRunMethod (key : String)
  /-- `self._routines[key]` KeyError (models.py:345). -/
  | missingRoutine (key : String)
  /-- `self._train_procedures[i]` IndexError (models.py:333). -/
  | badProcedureIndex (i : Nat)
  /-- `routine` is still unbound at the merge step (models.py:424) because no
  repeat loop has run yet in this step (a zero repeat-count on the first
  scheduled pair): Python `NameError`. -/
  | nameErrorRoutineUnbound
deriving Repr, DecidableEq

/-- How a step stops early: an exception surfaced to the caller, or the
`exit(0)` process termination of the strict-mode anomaly check
(models.py:422). -/
inductive Abort where
  | err : StepErr → Abort
  | exitProcess : Abort
deriving Repr, DecidableEq

/-- Observable events of one step, in order: the batch fetches
(`self._data.next()`), the start of each repeat-loop iteration, each actual
execution of a routine's `run` entry point, and the bad-values report
printed just before a strict-mode exit. -/
inductive Event where
  | dataNext
  | iterStart (key : String) (u : Nat)
  | invoke (key : String) (u : Nat)
  | printBadValues (bads : List (String × Scalar))
deriving Repr, DecidableEq

/-! ## Routine instances (models.py:103-164) -/

/-- The mutable per-instance state of a `RoutinePluginBase`: captured
results, per-resource nullable losses, wired inputs, and the run-wide
`training_nets` list.  (`inputs` and `training_nets` are attributes the
instance acquires outside this module; their uses are models.py:361-386 and
models.py:352,412-414.) -/
structure RoutineState where
  results : List (String × Scalar)
  losses : List (String × Option TValue)
  inputs : List (String × InVal)
  training_nets : List String
deriving Repr, DecidableEq

/-- `RoutinePluginBase.reset` (models.py:158-161): clear results, losses and
inputs.  `training_nets` is not touched. -/
def RoutineState.reset (st : RoutineState) : RoutineState :=
  { st with results := [], losses := [], inputs := [] }

/-- What one execution of a routine's `run` entry point produces: the
results and losses it stores on the instance, and the outputs dict it
returns. -/
structure RunOutput where
  results : List (String × Scalar)
  losses : List (String × Option TValue)
  outputs : List (String × TValue)

/-- The static description of a routine instance: declared required and
optional input names, the `_names` remap, whether a `run` entry point is
defined (`hasattr(self, 'run')`), and the entry point itself as a function
of the wired inputs (the plugin's computation, external to the scheduler). -/
structure RoutineSpec where
  plugin_inputs : List String
  plugin_optional_inputs : List String
  names : List (String × Send)
  hasRun : Bool
  run : List (String × InVal) → RunOutput

/-- Required-input wiring (models.py:359-373): resolve each declared
required input through the name remap and the pool, storing
`routine.inputs[receive]`; the first absent resolved key raises the
missing-input KeyError naming the resolved send and the available keys. -/
def wireRequired (pool : Pool) (names : List (String × Send)) :
    List String → List (String × InVal) → Except StepErr (List (String × InVal))
  | [], acc => Except.ok acc
  | receive :: rest, acc =>
    let send := namesGet names receive
    match resolveSend pool send with
    | some v => wireRequired pool names rest (assocSet acc receive v)
    | none => Except.error (StepErr.missingInput send (poolKeys pool))

/-- Optional-input wiring (models.py:375-386): same resolution, but any
failure binds the input to `None` (the absent marker) instead of raising. -/
def wireOptional (pool : Pool) (names : List (String × Send)) :
    List String → List (String × InVal) → List (String × InVal)
  | [], acc => acc
  | receive :: rest, acc =>
    match resolveSend pool (namesGet names receive) with
    | some v => wireOptional pool names rest (assocSet acc receive v)
    | none => wireOptional pool names rest (assocSet acc receive InVal.absent)

/-- `outputs = routine(**kwargs)` (models.py:389) followed by
`RoutinePluginBase.__call__` / `perform` (models.py:143-156).
`__call__(self)` declares no keyword parameters, so passing any resolved
kwargs raises `TypeError` before the entry point runs; with empty kwargs,
`perform` raises `ValueError` when no `run` method is set and otherwise
executes `run`, which updates the instance's results and losses and returns
the outputs dict.  The cuda device scoping of `__call__` only selects the
compute device. -/
def routineCall (key : String) (spec : RoutineSpec) (st : RoutineState)
    (passedKwargs : List (String × TValue)) :
    Except StepErr (RoutineState × List (String × TValue)) :=
  if passedKwargs.isEmpty then
    if spec.hasRun then
      let out := spec.run st.inputs
      Except.ok ({ st with results := out.results, losses := out.losses },
                 out.outputs)
    else Except.error (StepErr.noRunMethod key)
  else Except.error (StepErr.callTypeError key)

/-- Output emission on the final repeat iteration (models.py:401-409): each
output lands in the pool under `"<routine_key>.<output_name>"` as a
gradient-detached snapshot; a key already present raises the duplicate-key
KeyError. -/
def emitOutputs (key : String) :
    List (String × TValue) → Pool → Except StepErr Pool
  | [], pool => Except.ok pool
  | (k, v) :: rest, pool =>
    let k' := key ++ "." ++ k
    if poolHas pool k' then Except.error (StepErr.duplicateOutputKey k')
    else emitOutputs key rest (assocSet pool k' v.detach)

/-- Trained-resource bookkeeping (models.py:411-414): every key of the
routine's loss handler is appended to `training_nets` unless already
present. -/
def addTrainingNets (tn : List String) : List String → List String
  | [] => tn
  | k :: rest => addTrainingNets (if k ∈ tn then tn else tn ++ [k]) rest

/-- Modelled from the spec: `bad_values` (from `cortex/_lib/utils.py`, not
under src/) scans the scalar results for not-a-number/infinite values and
returns the offending entries. -/
def bad_values (results : List (String × Scalar)) : List (String × Scalar) :=
  results.filter (fun kv => kv.2.isBad)

/-! ## The model composition and the scheduler state (models.py:167-449) -/

/-- The static environment of a composition: the external data source as a
sequence of batches, the attached routine instances, the per-routine
resolved kwargs (`self._kwargs[key]`, models.py:346; the `Handler` class is
not under src/ and is modelled from the spec as a mapping from routine key
to that routine's resolved kwargs), and `self._train_procedures` as
`(mode, procedure, updates)` triples. -/
structure ModelEnv where
  batches : Nat → List (String × TValue)
  routines : String → Option RoutineSpec
  kwargsOf : String → List (String × TValue)
  trainProcedures : List (String × List String × List Nat)

/-- The mutable state the scheduler reads and writes: the data source
position, every routine instance's state, the composition-level loss
handler, and the results accumulator (`self._results` with its `losses` and
`time` sub-dicts; wall-clock durations are external, so only the number of
appended time entries is tracked). -/
structure ModelState where
  dataPos : Nat
  routineStates : String → RoutineState
  modelLosses : List (String × Option TValue)
  accResults : String → List Scalar
  accLosses : String → List Int
  accTimeCount : String → Nat

/-- `reset_routines` (models.py:433-436): clear the composition losses and
reset every routine instance. -/
def reset_routines (M : ModelState) : ModelState :=
  { M with modelLosses := [],
           routineStates := fun k => (M.routineStates k).reset }

/-- `update_dict_of_lists` (from `cortex/_lib/utils.py`, not under src/;
per the spec, ResultsAggregator `update` appends each value to that key's
history list, creating it on first use). -/
def appendHist {α : Type} (h : String → List α) :
    List (String × α) → (String → List α)
  | [] => h
  | (k, v) :: rest =>
    appendHist (fun k' => if k' = k then h k' ++ [v] else h k') rest

/-- The post-repeat-loop merge (models.py:424-431): convert the routine's
loss values to plain scalars (`v.item()`; `LossHandler` is not under src/ —
per the spec losses are nullable per-resource values, and only actual loss
values convert), then append the routine's results, losses and elapsed time
into the accumulator.  `key` is the scheduled routine key the time entry is
recorded under. -/
def mergeResults (key : String) (st : RoutineState) (M : ModelState) :
    ModelState :=
  let routineLosses := st.losses.filterMap
    (fun kv => kv.2.map (fun v => (kv.1, v.val)))
  { M with accResults := appendHist M.accResults st.results,
           accLosses := appendHist M.accLosses routineLosses,
           accTimeCount := fun k =>
             if k = key then M.accTimeCount k + 1 else M.accTimeCount k }

/-- Seed the fresh pool with the current batch (models.py:335-336):
one entry per batch field under key `"data.<field>"`. -/
def seedPool (batch : List (String × TValue)) : Pool :=
  batch.foldl (fun pool kv => assocSet pool ("data." ++ kv.1) kv.2) []

/-! ## One repeat-loop iteration (models.py:341-422) -/

/-- The outcome of one repeat-loop iteration: which observable actions
happened (mid-loop batch fetch, actual entry-point execution, bad-values
report) and the resulting state or abort. -/
structure IterOut where
  fetched : Bool
  invoked : Bool
  printed : Option (List (String × Scalar))
  res : Except Abort (ModelState × Pool)

/-- The mid-loop refetch (models.py:342-343): `if u > 0: self._data.next()`.
The source does NOT reseed the pool's `data.*` entries afterwards. -/
def fetchAt (u : Nat) (M : ModelState) : ModelState :=
  if 0 < u then { M with dataPos := M.dataPos + 1 } else M

/-- The part of one repeat-loop iteration after the mid-loop refetch
(models.py:345-422), with `final` standing for the `u == update - 1`
final-iteration test:

* look up the routine and its resolved kwargs and reset the instance
  (models.py:345-347);
* the `train` branch (models.py:351-357) zeroes gradients and enables
  differentiation on external optimizer/network objects only — no
  scheduler-visible state changes;
* wire required then optional inputs (models.py:359-386);
* invoke the routine (models.py:388-389);
* the `train` backprop branch (models.py:392-397) steps external optimizers;
* on the final iteration only, emit the outputs into the pool
  (models.py:401-409);
* record every loss key in `training_nets` (models.py:411-414);
* scan the results for bad values; when found under
  `quit_on_bad_values`, print them and `exit(0)` (models.py:416-422). -/
def runIterBody (env : ModelEnv) (quit : Bool) (key : String) (final : Bool)
    (M : ModelState) (pool : Pool) : IterOut :=
  match env.routines key with
  | none => ⟨false, false, none, Except.error (Abort.err (StepErr.missingRoutine key))⟩
  | some spec =>
    let st := (M.routineStates key).reset
    match wireRequired pool spec.names spec.plugin_inputs st.inputs with
    | Except.error e => ⟨false, false, none, Except.error (Abort.err e)⟩
    | Except.ok inp1 =>
      let inp2 := wireOptional pool spec.names spec.plugin_optional_inputs inp1
      let st1 := { st with inputs := inp2 }
      match routineCall key spec st1 (env.kwargsOf key) with
      | Except.error e => ⟨false, false, none, Except.error (Abort.err e)⟩
      | Except.ok (st2, outputs) =>
        match (if final then emitOutputs key outputs pool
               else Except.ok pool) with
        | Except.error e => ⟨false, true, none, Except.error (Abort.err e)⟩
        | Except.ok pool2 =>
          let st3 := { st2 with
            training_nets :=
              addTrainingNets st2.training_nets (st2.losses.map Prod.fst) }
          let M2 := { M with
            routineStates := fun k => if k = key then st3 else M.routineStates k }
          let bads := bad_values st3.results
          if (!bads.isEmpty) && quit then
            ⟨false, true, some bads, Except.error Abort.exitProcess⟩
          else
            ⟨false, true, none, Except.ok (M2, pool2)⟩

/-- One pass of the repeat loop `for u in range(update)` (models.py:341-422):
the mid-loop refetch followed by the iteration body, with the fetch recorded
in the iteration's observable actions. -/
def runIterCore (env : ModelEnv) (_train quit : Bool) (key : String)
    (u update : Nat) (M0 : ModelState) (pool : Pool) : IterOut :=
  let o := runIterBody env quit key (decide (u = update - 1)) (fetchAt u M0) pool
  ⟨decide (0 < u), o.invoked, o.printed, o.res⟩

/-- The events one iteration contributes to the step trace, in source
order: the loop-iteration start, the mid-loop fetch, the entry-point
execution, the bad-values report. -/
def IterOut.events (key : String) (u : Nat) (o : IterOut) : List Event :=
  [Event.iterStart key u]
    ++ (if o.fetched then [Event.dataNext] else [])
    ++ (if o.invoked then [Event.invoke key u] else [])
    ++ (match o.printed with
        | some b => [Event.printBadValues b]
        | none => [])

/-- One repeat-loop iteration with its trace. -/
def runIter (env : ModelEnv) (train quit : Bool) (key : String)
    (u update : Nat) (M : ModelState) (pool : Pool) :
    List Event × Except Abort (ModelState × Pool) :=
  let o := runIterCore env train quit key u update M pool
  (o.events key u, o.res)

/-- Sequencing of two traced stages: an abort of the first stage propagates
with its trace and nothing of the second stage happens; otherwise the second
stage runs on the first stage's result and the traces concatenate. -/
def stepSeq {α β : Type} (first : List Event × Except Abort α)
    (next : α → List Event × Except Abort β) :
    List Event × Except Abort β :=
  match first.2 with
  | Except.error a => (first.1, Except.error a)
  | Except.ok x => (first.1 ++ (next x).1, (next x).2)

/-- The repeat loop from index `u`, `fuel` iterations remaining, with the
per-iteration index passed to the final-iteration test against `update`. -/
def runItersFrom (env : ModelEnv) (train quit : Bool) (key : String)
    (update : Nat) :
    Nat → Nat → ModelState → Pool →
    List Event × Except Abort (ModelState × Pool)
  | _, 0, M, pool => ([], Except.ok (M, pool))
  | u, fuel + 1, M, pool =>
    stepSeq (runIter env train quit key u update M pool)
      (fun Mp => runItersFrom env train quit key update (u + 1) fuel Mp.1 Mp.2)

/-- The post-repeat-loop merge step of one scheduled entry
(models.py:424-431), recording the routine's losses, results and elapsed
time.  `lastKey` models Python's leaked `routine` loop binding: when the
repeat loop of this entry never ran (`update = 0`), the merge step reads
the routine of the PREVIOUS entry, and raises `NameError` when there is
none. -/
def mergeStage (train : Bool) (keyUpd : String × Nat) (lastKey : Option String)
    (Mp : ModelState × Pool) :
    List Event × Except Abort (ModelState × Pool × Option String) :=
  let key := keyUpd.1
  let update := if train then keyUpd.2 else 1
  match (if update = 0 then lastKey else some key) with
  | none => ([], Except.error (Abort.err StepErr.nameErrorRoutineUnbound))
  | some mkey =>
    ([], Except.ok (mergeResults key (Mp.1.routineStates mkey) Mp.1, Mp.2, some mkey))

/-- One scheduled `(routine_key, repeat_count)` entry (models.py:338-431):
in evaluation mode the repeat count is forced to 1 (models.py:339-340);
then the repeat loop runs, followed by the merge step. -/
def runEntry (env : ModelEnv) (train quit : Bool) (keyUpd : String × Nat)
    (M : ModelState) (pool : Pool) (lastKey : Option String) :
    List Event × Except Abort (ModelState × Pool × Option String) :=
  let update := if train then keyUpd.2 else 1
  stepSeq (runItersFrom env train quit keyUpd.1 update 0 update M pool)
    (mergeStage train keyUpd lastKey)

/-- The outer loop over `zip(procedure, updates)` (models.py:338-431): each
entry in order; an abort (exception or process exit) stops the step with no
later entry contributing anything. -/
def runEntries (env : ModelEnv) (train quit : Bool) :
    List (String × Nat) → ModelState → Pool → Option String →
    List Event × Except Abort (ModelState × Pool)
  | [], M, pool, _ => ([], Except.ok (M, pool))
  | ku :: rest, M, pool, lastKey =>
    stepSeq (runEntry env train quit ku M pool lastKey)
      (fun s => runEntries env train quit rest s.1 s.2.1 s.2.2)

/-- The step's return: `run_procedure` returns no value, so only the final
composition state (or the abort) is kept; the pool is dropped. -/
def stepFinish (res : List Event × Except Abort (ModelState × Pool)) :
    List Event × Except Abort ModelState :=
  (res.1,
   match res.2 with
   | Except.error a => Except.error a
   | Except.ok Mp => Except.ok Mp.1)

/-- `ModelPluginBase.run_procedure` (models.py:329-431): advance the data
source, reset the routines, look up the scheduled procedure, seed a fresh
pool with the batch fields under `"data.<field>"`, then run every scheduled
entry.  The pool is discarded at the end of the step. -/
def run_procedure (env : ModelEnv) (M : ModelState) (i : Nat)
    (quit_on_bad_values train : Bool) :
    List Event × Except Abort ModelState :=
  let M1 := { M with dataPos := M.dataPos + 1 }
  let M2 := reset_routines M1
  match env.trainProcedures.get? i with
  | none => ([Event.dataNext], Except.error (Abort.err (StepErr.badProcedureIndex i)))
  | some t =>
    let pool := seedPool (env.batches M2.dataPos)
    let res := stepFinish (runEntries env train quit_on_bad_values
      (t.2.1.zip t.2.2) M2 pool none)
    (Event.dataNext :: res.1, res.2)

/-- `ModelPluginBase.train` (models.py:325-327): `run_procedure` with
`train=True`. -/
def ModelPluginBase.train (env : ModelEnv) (M : ModelState) (i : Nat)
    (quit_on_bad_values : Bool) : List Event × Except Abort ModelState :=
  run_procedure env M i quit_on_bad_values true

/-! ## Observation helpers -/

/-- Whether a step outcome is a normal completion. -/
def okB {α : Type} : Except Abort α → Bool
  | Except.ok _ => true
  | Except.error _ => false

/-- The completed state of a step outcome, with a default for aborts. -/
def getOk (r : Except Abort ModelState) (d : ModelState) : ModelState :=
  match r with
  | Except.ok M => M
  | Except.error _ => d

/-- The repeat-loop iteration starts recorded in a trace. -/
def iterStarts (ev : List Event) : List (String × Nat) :=
  ev.filterMap (fun e =>
    match e with
    | Event.iterStart k u => some (k, u)
    | _ => none)

/-- Whether an event is the bad-values report printed before a strict-mode
exit — the only logging the anomaly scan ever does. -/
def isPrintEvent : Event → Bool
  | Event.printBadValues _ => true
  | _ => false

/-! ## Concrete compositions used in demonstrations -/

/-- A freshly constructed routine instance: empty results, losses, inputs
and trained-resources list. -/
def emptyRoutineState : RoutineState := ⟨[], [], [], []⟩

/-- A freshly constructed composition state. -/
def initState : ModelState :=
  { dataPos := 0,
    routineStates := fun _ => emptyRoutineState,
    modelLosses := [],
    accResults := fun _ => [],
    accLosses := fun _ => [],
    accTimeCount := fun _ => 0 }

/-- The single wired input of a routine, as a plain value. -/
def inputVal (inputs : List (String × InVal)) (k : String) : TValue :=
  match assocGet inputs k with
  | some (InVal.one v) => v
  | _ => ⟨0, false⟩

/-- A routine that echoes its wired `x` input: result `rx`, loss for `net`,
output `y`. -/
def echoSpec : RoutineSpec :=
  { plugin_inputs := ["x"],
    plugin_optional_inputs := [],
    names := [("x", Send.single "data.x")],
    hasRun := true,
    run := fun inputs =>
      { results := [("rx", ⟨(inputVal inputs "x").val, false⟩)],
        losses := [("net", some (inputVal inputs "x"))],
        outputs := [("y", inputVal inputs "x")] } }

/-- A composition scheduling the echo routine with repeat-count 2 over a
data source whose batch field `x` is ten times the batch position. -/
def demoEnv : ModelEnv :=
  { batches := fun n => [("x", ⟨10 * (n : Int), false⟩)],
    routines := fun k => if k = "r" then some echoSpec else none,
    kwargsOf := fun _ => [],
    trainProcedures := [("train", ["r"], [2])] }

/-- A fresh state whose routine instances already carry a trained resource. -/
def trainedState : ModelState :=
  { initState with
    routineStates := fun _ => { emptyRoutineState with training_nets := ["old"] } }

/-- A routine whose only scalar result is a bad (not-a-number) value. -/
def badSpec : RoutineSpec :=
  { plugin_inputs := [],
    plugin_optional_inputs := [],
    names := [],
    hasRun := true,
    run := fun _ =>
      { results := [("badloss", ⟨0, true⟩)], losses := [], outputs := [] } }

/-- A composition scheduling only the bad-result routine. -/
def badEnv : ModelEnv :=
  { batches := fun _ => [("x", ⟨1, false⟩)],
    routines := fun k => if k = "r" then some badSpec else none,
    kwargsOf := fun _ => [],
    trainProcedures := [("train", ["r"], [1])] }

/-- A routine with a `run` entry point and no declared inputs. -/
def kwSpec : RoutineSpec :=
  { plugin_inputs := [],
    plugin_optional_inputs := [],
    names := [],
    hasRun := true,
    run := fun _ => ⟨[], [], []⟩ }

/-- A composition whose routine has one resolved kwarg. -/
def kwEnv : ModelEnv :=
  { batches := fun _ => [],
    routines := fun k => if k = "r" then some kwSpec else none,
    kwargsOf := fun k => if k = "r" then [("learning_rate", ⟨1, false⟩)] else [],
    trainProcedures := [("train", ["r"], [1])] }

/-- A routine producing the output name `z`. -/
def clashSpec : RoutineSpec :=
  { plugin_inputs := [],
    plugin_optional_inputs := [],
    names := [],
    hasRun := true,
    run := fun _ => ⟨[], [], [("z", ⟨7, true⟩)]⟩ }

/-- A composition scheduling the `z`-producing routine under key `q`. -/
def clashEnv : ModelEnv :=
  { batches := fun _ => [],
    routines := fun k => if k = "q" then some clashSpec else none,
    kwargsOf := fun _ => [],
    trainProcedures := [("train", ["q"], [1])] }

/-- A well-formed composition: every attached object has the expected kind. -/
def goodComp : ModelPluginBase := ⟨[("rt", true)], [("bd", true)]⟩

/-- A broken composition: its attached routine is not a `RoutinePluginBase`. -/
def badComp : ModelPluginBase := ⟨[("rt", false)], []⟩

/-- A registered-models table with a broken composition between two good
ones. -/
def discoveryTable : List (String × ModelPluginBase) :=
  [("alpha", goodComp), ("broken", badComp), ("beta", goodComp)]

/-- A build plugin named `resnet` with its entry-point attribute set. -/
def resnetPlugin : Plugin :=
  { plugin_name := some "resnet",
    attrs := fun k => if k = "build" then some 1 else none,
    protectedAttrs := ["description"],
    requiredAttrs := ["build"] }

/-- A routine plugin that never had its `plugin_name` static member set. -/
def namelessPlugin : Plugin :=
  { plugin_name := none,
    attrs := fun k => if k = "run" then some 1 else none,
    protectedAttrs := ["description"],
    requiredAttrs := ["run"] }

/-! ## Helper lemmas: association lists -/

theorem assocGet_assocSet_self {α : Type} (l : List (String × α)) (k : String)
    (v : α) : assocGet (assocSet l k v) k = some v := by
  induction l with
  | nil => simp [assocSet, assocGet]
  | cons hd tl ih =>
    obtain ⟨k', v'⟩ := hd
    by_cases h : k' = k
    · subst h; simp [assocSet, assocGet]
    · simp [assocSet, assocGet, h] at ih ⊢
      exact ih

theorem assocGet_assocSet_ne {α : Type} (l : List (String × α)) (k x : String)
    (v : α) (h : x ≠ k) : assocGet (assocSet l k v) x = assocGet l x := by
  induction l with
  | nil => simp [assocSet, assocGet, h, Ne.symm h]
  | cons hd tl ih =>
    obtain ⟨k', v'⟩ := hd
    by_cases h' : k' = k
    · subst h'
      simp [assocSet, assocGet, Ne.symm h]
    · by_cases h'' : k' = x
      · subst h''; simp [assocSet, assocGet, h']
      · simp [assocSet, assocGet, h', h''] at ih ⊢
        exact ih

theorem poolHas_assocSet (pool : Pool) (k x : String) (v : TValue)
    (h : poolHas pool x = true) : poolHas (assocSet pool k v) x = true := by
  by_cases hx : x = k
  · subst hx; simp [poolHas, poolGet, assocGet_assocSet_self]
  · simpa [poolHas, poolGet, assocGet_assocSet_ne pool k x v hx] using h

/-! ## Helper lemmas: routine reset -/

@[simp] theorem reset_inputs (st : RoutineState) : st.reset.inputs = [] := rfl

@[simp] theorem reset_results (st : RoutineState) : st.reset.results = [] := rfl

@[simp] theorem reset_losses (st : RoutineState) : st.reset.losses = [] := rfl

@[simp] theorem reset_training_nets (st : RoutineState) :
    st.reset.training_nets = st.training_nets := rfl

/-! ## Helper lemmas: traces -/

theorem iterStarts_append (a b : List Event) :
    iterStarts (a ++ b) = iterStarts a ++ iterStarts b := by
  simp [iterStarts, List.filterMap_append]

theorem iterStarts_events (key : String) (u : Nat) (o : IterOut) :
    iterStarts (IterOut.events key u o) = [(key, u)] := by
  obtain ⟨f, inv, pr, res⟩ := o
  cases f <;> cases inv <;> cases pr <;>
    simp [IterOut.events, iterStarts, List.filterMap_append, List.filterMap]

theorem events_no_print (key : String) (u : Nat) (o : IterOut)
    (h : o.printed = none) :
    (IterOut.events key u o).all (fun e => !isPrintEvent e) = true := by
  obtain ⟨f, inv, pr, res⟩ := o
  simp only at h
  subst h
  cases f <;> cases inv <;> simp [IterOut.events, isPrintEvent]

/-! ## Helper lemmas: trained-resource bookkeeping -/

theorem mem_addTrainingNets_of_mem :
    ∀ (ks tn : List String) (r : String), r ∈ tn → r ∈ addTrainingNets tn ks := by
  intro ks
  induction ks with
  | nil => intro tn r h; simpa [addTrainingNets] using h
  | cons k rest ih =>
    intro tn r h
    simp only [addTrainingNets]
    apply ih
    by_cases hk : k ∈ tn
    · simpa [hk] using h
    · rw [if_neg hk]
      exact List.mem_append.mpr (Or.inl h)

theorem mem_addTrainingNets_of_mem_keys :
    ∀ (ks tn : List String) (r : String), r ∈ ks → r ∈ addTrainingNets tn ks := by
  intro ks
  induction ks with
  | nil => intro tn r h; simp at h
  | cons k rest ih =>
    intro tn r h
    rcases List.mem_cons.mp h with h' | h'
    · subst h'
      simp only [addTrainingNets]
      apply mem_addTrainingNets_of_mem
      by_cases hk : r ∈ tn
      · simp [hk]
      · simp [hk]
    · exact ih _ r h'

theorem addTrainingNets_eq_self :
    ∀ (ks tn : List String), (∀ k ∈ ks, k ∈ tn) → addTrainingNets tn ks = tn := by
  intro ks
  induction ks with
  | nil => intro tn _; rfl
  | cons k rest ih =>
    intro tn h
    have hk : k ∈ tn := h k (List.mem_cons_self k rest)
    simp only [addTrainingNets, hk, if_pos]
    exact ih tn (fun x hx => h x (List.mem_cons_of_mem k hx))

theorem addTrainingNets_idem (tn ks : List String) :
    addTrainingNets (addTrainingNets tn ks) ks = addTrainingNets tn ks :=
  addTrainingNets_eq_self ks _ (fun k hk => mem_addTrainingNets_of_mem_keys ks tn k hk)

/-! ## Helper lemmas: output emission -/

theorem emitOutputs_preserves (key : String) :
    ∀ (outs : List (String × TValue)) (pool pool' : Pool),
      emitOutputs key outs pool = Except.ok pool' →
      ∀ x w, poolGet pool x = some w → poolGet pool' x = some w := by
  intro outs
  induction outs with
  | nil =>
    intro pool pool' h x w hx
    simp only [emitOutputs, Except.ok.injEq] at h
    subst h; exact hx
  | cons q rest ih =>
    intro pool pool' h x w hx
    obtain ⟨k, v⟩ := q
    simp only [emitOutputs] at h
    cases hc : poolHas pool (key ++ "." ++ k) with
    | true => rw [hc] at h; simp at h
    | false =>
      rw [hc] at h
      simp only [Bool.false_eq_true, if_false] at h
      have hne : x ≠ key ++ "." ++ k := by
        intro he
        rw [← he] at hc
        simp [poolHas, hx] at hc
      refine ih _ _ h x w ?_
      rw [show poolGet (assocSet pool (key ++ "." ++ k) v.detach) x
            = assocGet (assocSet pool (key ++ "." ++ k) v.detach) x from rfl]
      rw [assocGet_assocSet_ne pool (key ++ "." ++ k) x v.detach hne]
      exact hx

theorem emitOutputs_mem (key : String) :
    ∀ (outs : List (String × TValue)) (pool pool' : Pool),
      emitOutputs key outs pool = Except.ok pool' →
      ∀ p ∈ outs, poolGet pool' (key ++ "." ++ p.1) = some p.2.detach := by
  intro outs
  induction outs with
  | nil => intro pool pool' _ p hp; simp at hp
  | cons q rest ih =>
    intro pool pool' h p hp
    obtain ⟨k, v⟩ := q
    simp only [emitOutputs] at h
    cases hc : poolHas pool (key ++ "." ++ k) with
    | true => rw [hc] at h; simp at h
    | false =>
      rw [hc] at h
      simp only [Bool.false_eq_true, if_false] at h
      rcases List.mem_cons.mp hp with h' | h'
      · subst h'
        refine emitOutputs_preserves key rest _ _ h _ _ ?_
        exact assocGet_assocSet_self pool (key ++ "." ++ k) v.detach
      · exact ih _ _ h p h'

theorem emitOutputs_collision (key : String) :
    ∀ (outs : List (String × TValue)) (pool : Pool),
      (∃ p ∈ outs, poolHas pool (key ++ "." ++ p.1) = true) →
      ∃ k', emitOutputs key outs pool
        = Except.error (StepErr.duplicateOutputKey k') := by
  intro outs
  induction outs with
  | nil => intro pool h; obtain ⟨p, hp, _⟩ := h; simp at hp
  | cons q rest ih =>
    intro pool h
    obtain ⟨k, v⟩ := q
    cases hc : poolHas pool (key ++ "." ++ k) with
    | true =>
      refine ⟨key ++ "." ++ k, ?_⟩
      simp only [emitOutputs]
      rw [hc]
      simp
    | false =>
      obtain ⟨p, hp, hph⟩ := h
      rcases List.mem_cons.mp hp with h' | h'
      · subst h'
        simp only at hph
        rw [hph] at hc
        cases hc
      · have hmono : poolHas (assocSet pool (key ++ "." ++ k) v.detach)
            (key ++ "." ++ p.1) = true := poolHas_assocSet _ _ _ _ hph
        obtain ⟨k', hk'⟩ := ih (assocSet pool (key ++ "." ++ k) v.detach)
          ⟨p, h', hmono⟩
        refine ⟨k', ?_⟩
        simp only [emitOutputs]
        rw [hc]
        simpa using hk'

/-! ## Helper lemmas: input wiring -/

theorem seqLookup_missing (pool : Pool) :
    ∀ (l : List String), seqLookup pool l = none →
      ∃ k ∈ l, poolGet pool k = none := by
  intro l
  induction l with
  | nil => intro h; simp [seqLookup] at h
  | cons s rest ih =>
    intro h
    simp only [seqLookup] at h
    cases hs : poolGet pool s with
    | none => exact ⟨s, List.mem_cons_self s rest, hs⟩
    | some v =>
      rw [hs] at h
      simp only [Option.map_eq_none'] at h
      obtain ⟨k, hk, hk'⟩ := ih h
      exact ⟨k, List.mem_cons_of_mem s hk, hk'⟩

theorem seqLookup_all_present (pool : Pool) :
    ∀ (l : List String), (∀ k ∈ l, (poolGet pool k).isSome = true) →
      ∃ vs, seqLookup pool l = some vs ∧
        List.Forall₂ (fun k v => poolGet pool k = some v) l vs := by
  intro l
  induction l with
  | nil => intro _; exact ⟨[], rfl, List.Forall₂.nil⟩
  | cons s rest ih =>
    intro h
    cases hs : poolGet pool s with
    | none =>
      have := h s (List.mem_cons_self s rest)
      rw [hs] at this
      simp at this
    | some v =>
      obtain ⟨vs, h1, h2⟩ := ih (fun k hk => h k (List.mem_cons_of_mem s hk))
      refine ⟨v :: vs, ?_, List.Forall₂.cons hs h2⟩
      simp [seqLookup, hs, h1]

theorem resolveSend_none_missing (pool : Pool) (s : Send)
    (h : resolveSend pool s = none) :
    ∃ k ∈ Send.keys s, poolGet pool k = none := by
  cases s with
  | single x =>
    simp only [resolveSend, Option.map_eq_none'] at h
    exact ⟨x, by simp [Send.keys], h⟩
  | many l =>
    simp only [resolveSend, Option.map_eq_none'] at h
    obtain ⟨k, hk, hk'⟩ := seqLookup_missing pool l h
    exact ⟨k, by simpa [Send.keys] using hk, hk'⟩

theorem wireRequired_missing (pool : Pool) (names : List (String × Send)) :
    ∀ (receives : List String) (acc : List (String × InVal)),
      (∃ r ∈ receives, resolveSend pool (namesGet names r) = none) →
      ∃ r ∈ receives,
        (∃ k ∈ Send.keys (namesGet names r), poolGet pool k = none) ∧
        wireRequired pool names receives acc
          = Except.error (StepErr.missingInput (namesGet names r) (poolKeys pool)) := by
  intro receives
  induction receives with
  | nil => intro acc h; obtain ⟨r, hr, _⟩ := h; simp at hr
  | cons rc rest ih =>
    intro acc h
    cases hres : resolveSend pool (namesGet names rc) with
    | none =>
      refine ⟨rc, List.mem_cons_self rc rest,
        resolveSend_none_missing pool _ hres, ?_⟩
      simp only [wireRequired]
      rw [hres]
    | some v =>
      obtain ⟨r, hr, hrn⟩ := h
      rcases List.mem_cons.mp hr with h' | h'
      · subst h'; rw [hres] at hrn; cases hrn
      · obtain ⟨r', hr', hmiss, herr⟩ := ih (assocSet acc rc v) ⟨r, h', hrn⟩
        refine ⟨r', List.mem_cons_of_mem rc hr', hmiss, ?_⟩
        simp only [wireRequired]
        rw [hres]
        exact herr

theorem wireOptional_get_notmem (pool : Pool) (names : List (String × Send)) :
    ∀ (opts : List String) (acc : List (String × InVal)) (r : String),
      r ∉ opts →
      assocGet (wireOptional pool names opts acc) r = assocGet acc r := by
  intro opts
  induction opts with
  | nil => intro acc r _; rfl
  | cons rc rest ih =>
    intro acc r h
    have h1 : r ≠ rc := fun he => h (he ▸ List.mem_cons_self rc rest)
    have h2 : r ∉ rest := fun hm => h (List.mem_cons_of_mem rc hm)
    cases hres : resolveSend pool (namesGet names rc) with
    | none =>
      simp only [wireOptional]
      rw [hres, ih _ r h2, assocGet_assocSet_ne acc rc r InVal.absent h1]
    | some v =>
      simp only [wireOptional]
      rw [hres, ih _ r h2, assocGet_assocSet_ne acc rc r v h1]

theorem wireOptional_absent (pool : Pool) (names : List (String × Send)) :
    ∀ (opts : List String) (acc : List (String × InVal)) (r : String),
      r ∈ opts → resolveSend pool (namesGet names r) = none →
      assocGet (wireOptional pool names opts acc) r = some InVal.absent := by
  intro opts
  induction opts with
  | nil => intro acc r h _; simp at h
  | cons rc rest ih =>
    intro acc r hmem hres
    by_cases he : r = rc
    · subst he
      simp only [wireOptional]
      rw [hres]
      by_cases hr : r ∈ rest
      · exact ih _ r hr hres
      · rw [wireOptional_get_notmem pool names rest _ r hr, assocGet_assocSet_self]
    · have hr : r ∈ rest := by
        rcases List.mem_cons.mp hmem with h' | h'
        · exact absurd h' he
        · exact h'
      cases hres' : resolveSend pool (namesGet names rc) with
      | none =>
        simp only [wireOptional]
        rw [hres']
        exact ih _ r hr hres
      | some v =>
        simp only [wireOptional]
        rw [hres']
        exact ih _ r hr hres

/-! ## Helper lemmas: one repeat-loop iteration -/

theorem routineCall_tn (key : String) (spec : RoutineSpec) (st : RoutineState)
    (kw : List (String × TValue)) (st2 : RoutineState)
    (outs : List (String × TValue))
    (h : routineCall key spec st kw = Except.ok (st2, outs)) :
    st2.training_nets = st.training_nets := by
  unfold routineCall at h
  repeat' (split at h <;> try simp_all)
  obtain ⟨h1, _⟩ := h
  rw [← h1]

theorem runIterBody_noquit (env : ModelEnv) (key : String) (final : Bool)
    (M : ModelState) (pool : Pool) :
    (runIterBody env false key final M pool).printed = none ∧
    (runIterBody env false key final M pool).res ≠ Except.error Abort.exitProcess := by
  unfold runIterBody
  repeat' (split <;> try simp_all)

theorem runIterBody_nonfinal_pool (env : ModelEnv) (quit : Bool) (key : String)
    (M : ModelState) (pool : Pool) (M' : ModelState) (pool' : Pool)
    (h : (runIterBody env quit key false M pool).res = Except.ok (M', pool')) :
    pool' = pool := by
  unfold runIterBody at h
  repeat' (split at h <;> try simp_all)

theorem runIterBody_tn_mono (env : ModelEnv) (quit : Bool) (key : String)
    (final : Bool) (M : ModelState) (pool : Pool) (M' : ModelState)
    (pool' : Pool)
    (h : (runIterBody env quit key final M pool).res = Except.ok (M', pool')) :
    ∀ k r, r ∈ (M.routineStates k).training_nets →
      r ∈ (M'.routineStates k).training_nets := by
  unfold runIterBody at h
  repeat' (split at h <;> try simp_all)
  rename_i x3 spec hspec x2 inp1 hw x1 st2 outputs hcall x0 pool2 hemit hbad
  obtain ⟨hM, -⟩ := h
  subst hM
  intro k r hr
  by_cases hk : k = key
  · subst hk
    show r ∈ (if k = k then _ else M.routineStates k).training_nets
    rw [if_pos rfl]
    apply mem_addTrainingNets_of_mem
    rw [routineCall_tn _ _ _ _ _ _ hcall]
    exact hr
  · show r ∈ (if k = key then _ else M.routineStates k).training_nets
    rw [if_neg hk]
    exact hr

theorem runIterBody_final_emit_error (env : ModelEnv) (quit : Bool)
    (key : String) (M : ModelState) (pool : Pool) (spec : RoutineSpec)
    (inp1 : List (String × InVal)) (e : StepErr)
    (hr : env.routines key = some spec)
    (hrun : spec.hasRun = true)
    (hkw : env.kwargsOf key = [])
    (hw : wireRequired pool spec.names spec.plugin_inputs [] = Except.ok inp1)
    (he : emitOutputs key
      (spec.run (wireOptional pool spec.names spec.plugin_optional_inputs inp1)).outputs
      pool = Except.error e) :
    (runIterBody env quit key true M pool).res = Except.error (Abort.err e) := by
  simp only [runIterBody, hr, reset_inputs, hw, routineCall, hkw, hrun,
    List.isEmpty_nil, if_true, he]

theorem runIterBody_bad_exit (env : ModelEnv) (key : String) (final : Bool)
    (M : ModelState) (pool : Pool) (spec : RoutineSpec)
    (inp1 : List (String × InVal)) (pool2 : Pool)
    (hr : env.routines key = some spec)
    (hrun : spec.hasRun = true)
    (hkw : env.kwargsOf key = [])
    (hw : wireRequired pool spec.names spec.plugin_inputs [] = Except.ok inp1)
    (hemit : (if final = true then emitOutputs key
        (spec.run (wireOptional pool spec.names spec.plugin_optional_inputs inp1)).outputs
        pool
      else Except.ok pool) = Except.ok pool2)
    (hbad : (bad_values
      (spec.run (wireOptional pool spec.names spec.plugin_optional_inputs inp1)).results).isEmpty
      = false) :
    (runIterBody env true key final M pool).res = Except.error Abort.exitProcess := by
  simp only [runIterBody, hr, reset_inputs, hw, routineCall, hkw, hrun,
    List.isEmpty_nil, if_true, hemit, hbad, Bool.not_false, Bool.and_true,
    Bool.true_and, if_false]

@[simp] theorem fetchAt_routineStates (u : Nat) (M : ModelState) :
    (fetchAt u M).routineStates = M.routineStates := by
  unfold fetchAt
  split <;> rfl

@[simp] theorem runIterCore_res (env : ModelEnv) (t q : Bool) (key : String)
    (u update : Nat) (M : ModelState) (pool : Pool) :
    (runIterCore env t q key u update M pool).res
      = (runIterBody env q key (decide (u = update - 1)) (fetchAt u M) pool).res :=
  rfl

@[simp] theorem runIterCore_printed (env : ModelEnv) (t q : Bool) (key : String)
    (u update : Nat) (M : ModelState) (pool : Pool) :
    (runIterCore env t q key u update M pool).printed
      = (runIterBody env q key (decide (u = update - 1)) (fetchAt u M) pool).printed :=
  rfl

@[simp] theorem runIter_fst (env : ModelEnv) (t q : Bool) (key : String)
    (u update : Nat) (M : ModelState) (pool : Pool) :
    (runIter env t q key u update M pool).1
      = IterOut.events key u (runIterCore env t q key u update M pool) :=
  rfl

@[simp] theorem runIter_snd (env : ModelEnv) (t q : Bool) (key : String)
    (u update : Nat) (M : ModelState) (pool : Pool) :
    (runIter env t q key u update M pool).2
      = (runIterCore env t q key u update M pool).res :=
  rfl

theorem runIterCore_tn_mono (env : ModelEnv) (t q : Bool) (key : String)
    (u update : Nat) (M : ModelState) (pool : Pool) (M' : ModelState)
    (pool' : Pool)
    (h : (runIterCore env t q key u update M pool).res = Except.ok (M', pool')) :
    ∀ k r, r ∈ (M.routineStates k).training_nets →
      r ∈ (M'.routineStates k).training_nets := by
  intro k r hr
  refine runIterBody_tn_mono env q key (decide (u = update - 1)) (fetchAt u M)
    pool M' pool' h k r ?_
  rw [fetchAt_routineStates]
  exact hr

/-! ## Helper lemmas: stage sequencing -/

theorem stepSeq_error {α β : Type} (first : List Event × Except Abort α)
    (next : α → List Event × Except Abort β) (a : Abort)
    (h : first.2 = Except.error a) :
    stepSeq first next = (first.1, Except.error a) := by
  unfold stepSeq
  rw [h]

theorem stepSeq_ok {α β : Type} (first : List Event × Except Abort α)
    (next : α → List Event × Except Abort β) (x : α)
    (h : first.2 = Except.ok x) :
    stepSeq first next = (first.1 ++ (next x).1, (next x).2) := by
  unfold stepSeq
  rw [h]

theorem stepFinish_error (res : List Event × Except Abort (ModelState × Pool))
    (a : Abort) (h : res.2 = Except.error a) :
    stepFinish res = (res.1, Except.error a) := by
  unfold stepFinish
  rw [h]

theorem stepFinish_ok (res : List Event × Except Abort (ModelState × Pool))
    (Mp : ModelState × Pool) (h : res.2 = Except.ok Mp) :
    stepFinish res = (res.1, Except.ok Mp.1) := by
  unfold stepFinish
  rw [h]

/-! ## Helper lemmas: the repeat loop -/

theorem runItersFrom_len (env : ModelEnv) (t q : Bool) (key : String)
    (update : Nat) :
    ∀ (fuel u : Nat) (M : ModelState) (pool : Pool),
      okB (runItersFrom env t q key update u fuel M pool).2 = true →
      (iterStarts (runItersFrom env t q key update u fuel M pool).1).length
        = fuel := by
  intro fuel
  induction fuel with
  | zero => intro u M pool _; simp [runItersFrom, iterStarts]
  | succ n ih =>
    intro u M pool h
    simp only [runItersFrom] at h ⊢
    cases hE : (runIter env t q key u update M pool).2 with
    | error a =>
      rw [stepSeq_error _ _ a hE] at h
      simp [okB] at h
    | ok Mp =>
      rw [stepSeq_ok _ _ Mp hE] at h ⊢
      dsimp only at h ⊢
      rw [iterStarts_append, List.length_append, runIter_fst, iterStarts_events]
      rw [ih (u + 1) Mp.1 Mp.2 h]
      simp [Nat.add_comm]

theorem runItersFrom_noquit (env : ModelEnv) (t : Bool) (key : String)
    (update : Nat) :
    ∀ (fuel u : Nat) (M : ModelState) (pool : Pool),
      (runItersFrom env t false key update u fuel M pool).2
        ≠ Except.error Abort.exitProcess ∧
      (runItersFrom env t false key update u fuel M pool).1.all
        (fun e => !isPrintEvent e) = true := by
  intro fuel
  induction fuel with
  | zero => intro u M pool; simp [runItersFrom]
  | succ n ih =>
    intro u M pool
    simp only [runItersFrom]
    have hpr : (runIter env t false key u update M pool).1.all
        (fun e => !isPrintEvent e) = true := by
      rw [runIter_fst]
      exact events_no_print key u _
        (by rw [runIterCore_printed]
            exact (runIterBody_noquit env key (decide (u = update - 1))
              (fetchAt u M) pool).1)
    cases hE : (runIter env t false key u update M pool).2 with
    | error a =>
      rw [stepSeq_error _ _ a hE]
      constructor
      · intro hcon
        dsimp only at hcon
        have := (runIterBody_noquit env key (decide (u = update - 1))
          (fetchAt u M) pool).2
        rw [runIter_snd, runIterCore_res] at hE
        cases hcon
        exact this hE
      · exact hpr
    | ok Mp =>
      rw [stepSeq_ok _ _ Mp hE]
      constructor
      · exact (ih (u + 1) Mp.1 Mp.2).1
      · dsimp only
        rw [List.all_append]
        exact Bool.and_eq_true_iff.mpr ⟨hpr, (ih (u + 1) Mp.1 Mp.2).2⟩

theorem runItersFrom_tn_mono (env : ModelEnv) (t q : Bool) (key : String)
    (update : Nat) :
    ∀ (fuel u : Nat) (M : ModelState) (pool : Pool) (Mp : ModelState × Pool),
      (runItersFrom env t q key update u fuel M pool).2 = Except.ok Mp →
      ∀ k r, r ∈ (M.routineStates k).training_nets →
        r ∈ (Mp.1.routineStates k).training_nets := by
  intro fuel
  induction fuel with
  | zero =>
    intro u M pool Mp h k r hr
    simp only [runItersFrom, Except.ok.injEq] at h
    rw [← h]
    exact hr
  | succ n ih =>
    intro u M pool Mp h k r hr
    simp only [runItersFrom] at h
    cases hE : (runIter env t q key u update M pool).2 with
    | error a =>
      rw [stepSeq_error _ _ a hE] at h
      simp at h
    | ok Mp1 =>
      rw [stepSeq_ok _ _ Mp1 hE] at h
      dsimp only at h
      rw [runIter_snd] at hE
      exact ih (u + 1) Mp1.1 Mp1.2 Mp h k r
        (runIterCore_tn_mono env t q key u update M pool Mp1.1 Mp1.2
          (by rw [hE]) k r hr)

/-! ## Helper lemmas: scheduled entries -/

@[simp] theorem mergeResults_routineStates (key : String) (st : RoutineState)
    (M : ModelState) :
    (mergeResults key st M).routineStates = M.routineStates := rfl

@[simp] theorem mergeStage_fst (train : Bool) (keyUpd : String × Nat)
    (lastKey : Option String) (Mp : ModelState × Pool) :
    (mergeStage train keyUpd lastKey Mp).1 = [] := by
  simp only [mergeStage]
  repeat' split
  all_goals rfl

theorem mergeStage_no_exit (train : Bool) (keyUpd : String × Nat)
    (lastKey : Option String) (Mp : ModelState × Pool) :
    (mergeStage train keyUpd lastKey Mp).2 ≠ Except.error Abort.exitProcess := by
  simp only [mergeStage]
  repeat' split
  all_goals simp

theorem runEntry_len (env : ModelEnv) (t q : Bool) (ku : String × Nat)
    (M : ModelState) (pool : Pool) (lk : Option String)
    (h : okB (runEntry env t q ku M pool lk).2 = true) :
    (iterStarts (runEntry env t q ku M pool lk).1).length
      = if t then ku.2 else 1 := by
  simp only [runEntry] at h ⊢
  cases hE : (runItersFrom env t q ku.1 (if t then ku.2 else 1) 0
      (if t then ku.2 else 1) M pool).2 with
  | error a =>
    rw [stepSeq_error _ _ a hE] at h
    simp [okB] at h
  | ok Mp =>
    rw [stepSeq_ok _ _ Mp hE] at h ⊢
    dsimp only at h ⊢
    rw [iterStarts_append, List.length_append, mergeStage_fst]
    rw [runItersFrom_len env t q ku.1 (if t then ku.2 else 1)
      (if t then ku.2 else 1) 0 M pool (by rw [hE]; rfl)]
    simp [iterStarts]

theorem runEntry_noquit (env : ModelEnv) (t : Bool) (ku : String × Nat)
    (M : ModelState) (pool : Pool) (lk : Option String) :
    (runEntry env t false ku M pool lk).2 ≠ Except.error Abort.exitProcess ∧
    (runEntry env t false ku M pool lk).1.all (fun e => !isPrintEvent e)
      = true := by
  simp only [runEntry]
  cases hE : (runItersFrom env t false ku.1 (if t then ku.2 else 1) 0
      (if t then ku.2 else 1) M pool).2 with
  | error a =>
    rw [stepSeq_error _ _ a hE]
    constructor
    · intro hcon
      dsimp only at hcon
      cases hcon
      exact (runItersFrom_noquit env t ku.1 (if t then ku.2 else 1)
        (if t then ku.2 else 1) 0 M pool).1 hE
    · exact (runItersFrom_noquit env t ku.1 (if t then ku.2 else 1)
        (if t then ku.2 else 1) 0 M pool).2
  | ok Mp =>
    rw [stepSeq_ok _ _ Mp hE]
    constructor
    · exact mergeStage_no_exit t ku lk Mp
    · dsimp only
      rw [List.all_append, mergeStage_fst]
      simp only [List.all_nil, Bool.and_true]
      exact (runItersFrom_noquit env t ku.1 (if t then ku.2 else 1)
        (if t then ku.2 else 1) 0 M pool).2

theorem runEntry_tn_mono (env : ModelEnv) (t q : Bool) (ku : String × Nat)
    (M : ModelState) (pool : Pool) (lk : Option String)
    (s : ModelState × Pool × Option String)
    (h : (runEntry env t q ku M pool lk).2 = Except.ok s) :
    ∀ k r, r ∈ (M.routineStates k).training_nets →
      r ∈ (s.1.routineStates k).training_nets := by
  simp only [runEntry] at h
  cases hE : (runItersFrom env t q ku.1 (if t then ku.2 else 1) 0
      (if t then ku.2 else 1) M pool).2 with
  | error a =>
    rw [stepSeq_error _ _ a hE] at h
    simp at h
  | ok Mp =>
    rw [stepSeq_ok _ _ Mp hE] at h
    dsimp only at h
    intro k r hr
    have hm := runItersFrom_tn_mono env t q ku.1 (if t then ku.2 else 1)
      (if t then ku.2 else 1) 0 M pool Mp hE k r hr
    simp only [mergeStage] at h
    repeat' split at h
    · exact absurd h (by simp)
    · dsimp only at h
      simp only [Except.ok.injEq] at h
      rw [← h]
      exact hm

/-! ## Helper lemmas: the entry sequence -/

theorem runEntries_len (env : ModelEnv) (t q : Bool) :
    ∀ (entries : List (String × Nat)) (M : ModelState) (pool : Pool)
      (lk : Option String),
      okB (runEntries env t q entries M pool lk).2 = true →
      (iterStarts (runEntries env t q entries M pool lk).1).length
        = (entries.map (fun ku => if t then ku.2 else 1)).sum := by
  intro entries
  induction entries with
  | nil => intro M pool lk _; simp [runEntries, iterStarts]
  | cons ku rest ih =>
    intro M pool lk h
    simp only [runEntries] at h ⊢
    cases hE : (runEntry env t q ku M pool lk).2 with
    | error a =>
      rw [stepSeq_error _ _ a hE] at h
      simp [okB] at h
    | ok s =>
      rw [stepSeq_ok _ _ s hE] at h ⊢
      dsimp only at h ⊢
      rw [iterStarts_append, List.length_append]
      rw [runEntry_len env t q ku M pool lk (by rw [hE]; rfl)]
      rw [ih s.1 s.2.1 s.2.2 h]
      simp

theorem runEntries_noquit (env : ModelEnv) (t : Bool) :
    ∀ (entries : List (String × Nat)) (M : ModelState) (pool : Pool)
      (lk : Option String),
      (runEntries env t false entries M pool lk).2
        ≠ Except.error Abort.exitProcess ∧
      (runEntries env t false entries M pool lk).1.all
        (fun e => !isPrintEvent e) = true := by
  intro entries
  induction entries with
  | nil => intro M pool lk; simp [runEntries]
  | cons ku rest ih =>
    intro M pool lk
    simp only [runEntries]
    cases hE : (runEntry env t false ku M pool lk).2 with
    | error a =>
      rw [stepSeq_error _ _ a hE]
      constructor
      · intro hcon
        dsimp only at hcon
        cases hcon
        exact (runEntry_noquit env t ku M pool lk).1 hE
      · exact (runEntry_noquit env t ku M pool lk).2
    | ok s =>
      rw [stepSeq_ok _ _ s hE]
      constructor
      · exact (ih s.1 s.2.1 s.2.2).1
      · dsimp only
        rw [List.all_append]
        exact Bool.and_eq_true_iff.mpr
          ⟨(runEntry_noquit env t ku M pool lk).2, (ih s.1 s.2.1 s.2.2).2⟩

theorem runEntries_tn_mono (env : ModelEnv) (t q : Bool) :
    ∀ (entries : List (String × Nat)) (M : ModelState) (pool : Pool)
      (lk : Option String) (Mp : ModelState × Pool),
      (runEntries env t q entries M pool lk).2 = Except.ok Mp →
      ∀ k r, r ∈ (M.routineStates k).training_nets →
        r ∈ (Mp.1.routineStates k).training_nets := by
  intro entries
  induction entries with
  | nil =>
    intro M pool lk Mp h k r hr
    simp only [runEntries, Except.ok.injEq] at h
    rw [← h]
    exact hr
  | cons ku rest ih =>
    intro M pool lk Mp h k r hr
    simp only [runEntries] at h
    cases hE : (runEntry env t q ku M pool lk).2 with
    | error a =>
      rw [stepSeq_error _ _ a hE] at h
      simp at h
    | ok s =>
      rw [stepSeq_ok _ _ s hE] at h
      dsimp only at h
      exact ih s.1 s.2.1 s.2.2 Mp h k r
        (runEntry_tn_mono env t q ku M pool lk s hE k r hr)

/-! ## Helper lemmas: the whole step -/

theorem iterStarts_cons_dataNext (l : List Event) :
    iterStarts (Event.dataNext :: l) = iterStarts l := by
  simp [iterStarts]

theorem stepFinish_len_aux (R : List Event × Except Abort (ModelState × Pool))
    (n : Nat) (hlen : okB R.2 = true → (iterStarts R.1).length = n)
    (h : okB (stepFinish R).2 = true) :
    (iterStarts (Event.dataNext :: (stepFinish R).1)).length = n := by
  cases hE : R.2 with
  | error a =>
    rw [stepFinish_error _ a hE] at h
    simp [okB] at h
  | ok Mp =>
    rw [stepFinish_ok _ Mp hE]
    dsimp only
    rw [iterStarts_cons_dataNext]
    exact hlen (by rw [hE]; rfl)

theorem stepFinish_tn_aux (R : List Event × Except Abort (ModelState × Pool))
    (M' : ModelState) (h : (stepFinish R).2 = Except.ok M') :
    ∃ Mp, R.2 = Except.ok Mp ∧ Mp.1 = M' := by
  cases hE : R.2 with
  | error a =>
    rw [stepFinish_error _ a hE] at h
    simp at h
  | ok Mp =>
    rw [stepFinish_ok _ Mp hE] at h
    dsimp only at h
    simp only [Except.ok.injEq] at h
    exact ⟨Mp, rfl, h⟩

theorem stepFinish_noquit_aux (R : List Event × Except Abort (ModelState × Pool))
    (hno : R.2 ≠ Except.error Abort.exitProcess)
    (hall : R.1.all (fun e => !isPrintEvent e) = true) :
    (stepFinish R).2 ≠ Except.error Abort.exitProcess ∧
    (Event.dataNext :: (stepFinish R).1).all (fun e => !isPrintEvent e)
      = true := by
  cases hE : R.2 with
  | error a =>
    rw [stepFinish_error _ a hE]
    constructor
    · intro hcon
      dsimp only at hcon
      cases hcon
      exact hno hE
    · simpa [isPrintEvent] using hall
  | ok Mp =>
    rw [stepFinish_ok _ Mp hE]
    constructor
    · simp
    · simpa [isPrintEvent] using hall

theorem run_procedure_len (env : ModelEnv) (M : ModelState) (i : Nat)
    (q t : Bool) (tr : String × List String × List Nat)
    (hP : env.trainProcedures.get? i = some tr)
    (h : okB (run_procedure env M i q t).2 = true) :
    (iterStarts (run_procedure env M i q t).1).length
      = ((tr.2.1.zip tr.2.2).map (fun ku => if t then ku.2 else 1)).sum := by
  simp only [run_procedure, hP] at h ⊢
  exact stepFinish_len_aux _ _ (runEntries_len env t q _ _ _ _) h

theorem run_procedure_noquit (env : ModelEnv) (M : ModelState) (i : Nat)
    (t : Bool) :
    (run_procedure env M i false t).2 ≠ Except.error Abort.exitProcess ∧
    (run_procedure env M i false t).1.all (fun e => !isPrintEvent e)
      = true := by
  simp only [run_procedure]
  cases hP : env.trainProcedures.get? i with
  | none => simp [isPrintEvent]
  | some tr =>
    dsimp only
    exact stepFinish_noquit_aux _
      (runEntries_noquit env t _ _ _ _).1
      (runEntries_noquit env t _ _ _ _).2

theorem run_procedure_tn_mono (env : ModelEnv) (M : ModelState) (i : Nat)
    (q t : Bool) (M' : ModelState)
    (h : (run_procedure env M i q t).2 = Except.ok M') :
    ∀ k r, r ∈ (M.routineStates k).training_nets →
      r ∈ (M'.routineStates k).training_nets := by
  simp only [run_procedure] at h
  cases hP : env.trainProcedures.get? i with
  | none => rw [hP] at h; simp at h
  | some tr =>
    rw [hP] at h
    dsimp only at h
    obtain ⟨Mp, hMp, hM'⟩ := stepFinish_tn_aux _ M' h
    intro k r hr
    rw [← hM']
    exact runEntries_tn_mono env t q _ _ _ _ Mp hMp k r hr

/-! ## The claims -/

/-- C1: For every scheduled (routine, repeat-count) pair of a step,
`run_procedure` with `train=False` executes the routine's repeat loop
exactly once regardless of the configured repeat-count, and with
`train=True` exactly repeat-count times.  Stated per scheduled entry and
for the whole step, counting the repeat-loop iteration starts of the trace,
for entries (steps) that complete without an abort. -/
theorem C1_repeat_counts :
    (∀ (env : ModelEnv) (train quit : Bool) (key : String) (update0 : Nat)
       (M : ModelState) (pool : Pool) (lk : Option String),
       okB (runEntry env train quit (key, update0) M pool lk).2 = true →
       (iterStarts (runEntry env train quit (key, update0) M pool lk).1).length
         = if train then update0 else 1) ∧
    (∀ (env : ModelEnv) (M : ModelState) (i : Nat) (quit train : Bool)
       (tr : String × List String × List Nat),
       env.trainProcedures.get? i = some tr →
       okB (run_procedure env M i quit train).2 = true →
       (iterStarts (run_procedure env M i quit train).1).length
         = ((tr.2.1.zip tr.2.2).map (fun ku => if train then ku.2 else 1)).sum) := by
  constructor
  · intro env train quit key update0 M pool lk h
    exact runEntry_len env train quit (key, update0) M pool lk h
  · intro env M i quit train tr hP h
    exact run_procedure_len env M i quit train tr hP h

/-- Witness for C1: the concrete two-repeat training entry of `demoEnv`
completes and its trace has exactly two repeat-loop iteration starts. -/
theorem C1_repeat_counts_witness :
    okB (runEntry demoEnv true false ("r", 2) initState
      (seedPool (demoEnv.batches 1)) none).2 = true ∧
    (iterStarts (runEntry demoEnv true false ("r", 2) initState
      (seedPool (demoEnv.batches 1)) none).1).length = 2 :=
  ⟨by decide, by
    have := C1_repeat_counts.1 demoEnv true false "r" 2 initState
      (seedPool (demoEnv.batches 1)) none (by decide)
    simpa using this⟩

/-- C2: Within one step, only the final repeat iteration of a routine copies
that routine's named outputs into the ValuePool, each stored under the key
`"<routine_key>.<output_name>"` as a gradient-detached snapshot; a key
already present in the pool fails the step with the duplicate-output-key
error.  Stated as: (i) a completed non-final iteration leaves the pool
unchanged; (ii) a completed emission stores every output detached under its
prefixed key; (iii) an output whose prefixed key is already present makes
the emission fail with DuplicateOutputKey; (iv) on the final iteration an
emission failure aborts the iteration with exactly that error. -/
theorem C2_final_iteration_outputs :
    (∀ (env : ModelEnv) (train quit : Bool) (key : String) (u update : Nat)
       (M M' : ModelState) (pool pool' : Pool),
       u ≠ update - 1 →
       (runIterCore env train quit key u update M pool).res
         = Except.ok (M', pool') →
       pool' = pool) ∧
    (∀ (key : String) (outs : List (String × TValue)) (pool pool' : Pool),
       emitOutputs key outs pool = Except.ok pool' →
       ∀ p ∈ outs, poolGet pool' (key ++ "." ++ p.1) = some p.2.detach) ∧
    (∀ (key : String) (outs : List (String × TValue)) (pool : Pool),
       (∃ p ∈ outs, poolHas pool (key ++ "." ++ p.1) = true) →
       ∃ k', emitOutputs key outs pool
         = Except.error (StepErr.duplicateOutputKey k')) ∧
    (∀ (env : ModelEnv) (train quit : Bool) (key : String) (u update : Nat)
       (M : ModelState) (pool : Pool) (spec : RoutineSpec)
       (inp1 : List (String × InVal)) (e : StepErr),
       env.routines key = some spec →
       spec.hasRun = true →
       env.kwargsOf key = [] →
       u = update - 1 →
       wireRequired pool spec.names spec.plugin_inputs [] = Except.ok inp1 →
       emitOutputs key
         (spec.run (wireOptional pool spec.names spec.plugin_optional_inputs inp1)).outputs
         pool = Except.error e →
       (runIterCore env train quit key u update M pool).res
         = Except.error (Abort.err e)) := by
  refine ⟨?_, emitOutputs_mem, emitOutputs_collision, ?_⟩
  · intro env train quit key u update M M' pool pool' hu h
    rw [runIterCore_res] at h
    have hdec : decide (u = update - 1) = false := by simp [hu]
    rw [hdec] at h
    exact runIterBody_nonfinal_pool env quit key (fetchAt u M) pool M' pool' h
  · intro env train quit key u update M pool spec inp1 e hr hrun hkw hu hw he
    rw [runIterCore_res]
    have hdec : decide (u = update - 1) = true := by simp [hu]
    rw [hdec]
    exact runIterBody_final_emit_error env quit key (fetchAt u M) pool spec
      inp1 e hr hrun hkw hw he

/-- Witness for C2: the routine `q` outputs `z` while the pool already has
the key `"q.z"`, and the final iteration aborts with DuplicateOutputKey. -/
theorem C2_final_iteration_outputs_witness :
    poolHas [("q.z", (⟨5, false⟩ : TValue))] "q.z" = true ∧
    (runIterCore clashEnv true false "q" 0 1 initState
      [("q.z", ⟨5, false⟩)]).res
      = Except.error (Abort.err (StepErr.duplicateOutputKey "q.z")) :=
  ⟨by decide,
   C2_final_iteration_outputs.2.2.2 clashEnv true false "q" 0 1 initState
     [("q.z", ⟨5, false⟩)] clashSpec [] (StepErr.duplicateOutputKey "q.z")
     rfl rfl rfl (by decide) rfl rfl⟩

/-- C3: during input wiring, a required input whose resolved ValuePool key
is absent fails the step with MissingRequiredInput carrying the resolved
requirement (which contains an absent key) and the available pool keys; a
requirement naming an ordered list of keys resolves to the ordered sequence
of their values; an absent optional input never fails and is bound to the
explicit absent marker. -/
theorem C3_input_wiring (pool : Pool) (names : List (String × Send)) :
    (∀ (receives : List String) (acc : List (String × InVal)),
       (∃ r ∈ receives, resolveSend pool (namesGet names r) = none) →
       ∃ r ∈ receives,
         (∃ k ∈ Send.keys (namesGet names r), poolGet pool k = none) ∧
         wireRequired pool names receives acc
           = Except.error
               (StepErr.missingInput (namesGet names r) (poolKeys pool))) ∧
    (∀ l : List String, (∀ k ∈ l, (poolGet pool k).isSome = true) →
       ∃ vs, resolveSend pool (Send.many l) = some (InVal.seq vs) ∧
         List.Forall₂ (fun k v => poolGet pool k = some v) l vs) ∧
    (∀ (opts : List String) (acc : List (String × InVal)) (r : String),
       r ∈ opts → resolveSend pool (namesGet names r) = none →
       assocGet (wireOptional pool names opts acc) r = some InVal.absent) := by
  refine ⟨wireRequired_missing pool names, ?_, wireOptional_absent pool names⟩
  intro l h
  obtain ⟨vs, h1, h2⟩ := seqLookup_all_present pool l h
  exact ⟨vs, by simp [resolveSend, h1], h2⟩

/-- Witness for C3: requiring `"image"` against a pool holding only
`"data.y"` fails naming `"image"` and the available keys, while the absent
optional input `"label"` is bound to the absent marker. -/
theorem C3_input_wiring_witness :
    resolveSend [("data.y", (⟨1, false⟩ : TValue))] (namesGet [] "image")
      = none ∧
    (∃ r ∈ ["image"],
      (∃ k ∈ Send.keys (namesGet [] r),
        poolGet [("data.y", (⟨1, false⟩ : TValue))] k = none) ∧
      wireRequired [("data.y", (⟨1, false⟩ : TValue))] [] ["image"] []
        = Except.error (StepErr.missingInput (namesGet [] r)
            (poolKeys [("data.y", (⟨1, false⟩ : TValue))]))) ∧
    assocGet (wireOptional [("data.y", (⟨1, false⟩ : TValue))] [] ["label"] [])
      "label" = some InVal.absent :=
  ⟨by decide,
   (C3_input_wiring [("data.y", (⟨1, false⟩ : TValue))] []).1 ["image"] []
     ⟨"image", by decide, by decide⟩,
   (C3_input_wiring [("data.y", (⟨1, false⟩ : TValue))] []).2.2 ["label"] []
     "label" (by decide) (by decide)⟩

/-- C4: the claim fails on the code.  `run_procedure` passes the resolved
kwargs at the call `routine(**kwargs)` (models.py:389), but
`RoutinePluginBase.__call__` (models.py:150) accepts no keyword parameters:
with the routine `r` defining its `run` entry point and one resolved kwarg,
the step aborts with the call's TypeError before the entry point ever runs
(the trace has no invoke event). -/
theorem C4_call_kwargs_typeerror :
    kwSpec.hasRun = true ∧
    kwEnv.kwargsOf "r" = [("learning_rate", ⟨1, false⟩)] ∧
    (run_procedure kwEnv initState 0 false false).2
      = Except.error (Abort.err (StepErr.callTypeError "r")) ∧
    (run_procedure kwEnv initState 0 false false).1
      = [Event.dataNext, Event.iterStart "r" 0] :=
  ⟨rfl, rfl, rfl, rfl⟩

/-- C5 counterexample: with strict mode off, a routine whose scalar results
contain a not-a-number value triggers no logging at all — the step's trace
has no bad-values report — while the run continues; the claim's
"logged only" behavior does not happen. -/
theorem C5_nonstrict_no_log_counterexample :
    okB (run_procedure badEnv initState 0 false true).2 = true ∧
    ((getOk (run_procedure badEnv initState 0 false true).2
        initState).routineStates "r").results = [("badloss", ⟨0, true⟩)] ∧
    bad_values [("badloss", (⟨0, true⟩ : Scalar))]
      = [("badloss", ⟨0, true⟩)] ∧
    (run_procedure badEnv initState 0 false true).1.all
      (fun e => !isPrintEvent e) = true :=
  ⟨by decide, by decide, by decide, by decide⟩

/-- C5 (amended): if a routine iteration's scalar results contain a
not-a-number/infinite value and strict mode is requested, the process
terminates immediately and no later routine of the procedure executes
(an aborted entry stops the step with no later entry contributing events);
if strict mode is not requested, the anomaly is ignored — nothing is
logged — and the run continues (a non-strict step never exits and its trace
never contains a bad-values report). -/
theorem C5_anomaly_handling :
    (∀ (env : ModelEnv) (train : Bool) (key : String) (u update : Nat)
       (M : ModelState) (pool : Pool) (spec : RoutineSpec)
       (inp1 : List (String × InVal)) (pool2 : Pool),
       env.routines key = some spec →
       spec.hasRun = true →
       env.kwargsOf key = [] →
       wireRequired pool spec.names spec.plugin_inputs [] = Except.ok inp1 →
       (if decide (u = update - 1) = true then emitOutputs key
           (spec.run (wireOptional pool spec.names spec.plugin_optional_inputs inp1)).outputs
           pool
         else Except.ok pool) = Except.ok pool2 →
       (bad_values
         (spec.run (wireOptional pool spec.names spec.plugin_optional_inputs inp1)).results).isEmpty
         = false →
       (runIterCore env train true key u update M pool).res
         = Except.error Abort.exitProcess) ∧
    (∀ (env : ModelEnv) (train quit : Bool) (ku : String × Nat)
       (rest : List (String × Nat)) (M : ModelState) (pool : Pool)
       (lk : Option String) (a : Abort),
       (runEntry env train quit ku M pool lk).2 = Except.error a →
       runEntries env train quit (ku :: rest) M pool lk
         = ((runEntry env train quit ku M pool lk).1, Except.error a)) ∧
    (∀ (env : ModelEnv) (M : ModelState) (i : Nat) (train : Bool),
       (run_procedure env M i false train).2
         ≠ Except.error Abort.exitProcess ∧
       (run_procedure env M i false train).1.all
         (fun e => !isPrintEvent e) = true) := by
  refine ⟨?_, ?_, ?_⟩
  · intro env train key u update M pool spec inp1 pool2 hr hrun hkw hw hemit hbad
    rw [runIterCore_res]
    exact runIterBody_bad_exit env key (decide (u = update - 1)) (fetchAt u M)
      pool spec inp1 pool2 hr hrun hkw hw hemit hbad
  · intro env train quit ku rest M pool lk a h
    simp only [runEntries]
    rw [stepSeq_error _ _ a h]
  · intro env M i train
    exact run_procedure_noquit env M i train

/-- Witness for C5: the bad-result routine of `badEnv` exits the process in
strict mode. -/
theorem C5_anomaly_handling_witness :
    (bad_values (badSpec.run (wireOptional [] [] [] [])).results).isEmpty
      = false ∧
    (runIterCore badEnv true true "r" 0 1 initState []).res
      = Except.error Abort.exitProcess :=
  ⟨by decide,
   C5_anomaly_handling.1 badEnv true "r" 0 1 initState [] badSpec [] []
     rfl rfl rfl rfl rfl (by decide)⟩

/-- C6: the per-routine trained-resources set only grows: a completed step
never removes a recorded entry, routine resets (per-instance and
composition-wide) never touch it, additions only grow it, and additions are
idempotent. -/
theorem C6_trained_set_monotone :
    (∀ (env : ModelEnv) (M : ModelState) (i : Nat) (quit train : Bool)
       (M' : ModelState),
       (run_procedure env M i quit train).2 = Except.ok M' →
       ∀ k r, r ∈ (M.routineStates k).training_nets →
         r ∈ (M'.routineStates k).training_nets) ∧
    (∀ st : RoutineState, st.reset.training_nets = st.training_nets) ∧
    (∀ (M : ModelState) (k : String),
       ((reset_routines M).routineStates k).training_nets
         = (M.routineStates k).training_nets) ∧
    (∀ (tn ks : List String) (r : String),
       r ∈ tn → r ∈ addTrainingNets tn ks) ∧
    (∀ tn ks : List String,
       addTrainingNets (addTrainingNets tn ks) ks = addTrainingNets tn ks) := by
  refine ⟨?_, reset_training_nets, fun M k => rfl, ?_, addTrainingNets_idem⟩
  · intro env M i quit train M' h
    exact run_procedure_tn_mono env M i quit train M' h
  · intro tn ks r h
    exact mem_addTrainingNets_of_mem ks tn r h

/-- Witness for C6: a resource recorded as trained before a step is still
recorded after the completed step. -/
theorem C6_trained_set_monotone_witness :
    "old" ∈ (trainedState.routineStates "r").training_nets ∧
    "old" ∈ ((getOk (run_procedure demoEnv trainedState 0 false true).2
        trainedState).routineStates "r").training_nets :=
  ⟨by decide,
   C6_trained_set_monotone.1 demoEnv trainedState 0 false true
     (getOk (run_procedure demoEnv trainedState 0 false true).2 trainedState)
     rfl "r" "old" (by decide)⟩

/-- C7: the claim fails on the code.  On the second repeat iteration the
scheduler fetches a fresh batch (the trace has two fetches and the data
position ends at 2, where the batch holds `x = 20`), but the ValuePool's
`data.*` entries are never reseeded: the routine's wired input on the
refetched iteration still holds the first batch's value `x = 10`. -/
theorem C7_no_reseed_after_refetch :
    okB (run_procedure demoEnv initState 0 false true).2 = true ∧
    (run_procedure demoEnv initState 0 false true).1.count Event.dataNext
      = 2 ∧
    (getOk (run_procedure demoEnv initState 0 false true).2
        initState).dataPos = 2 ∧
    demoEnv.batches 2 = [("x", ⟨20, false⟩)] ∧
    ((getOk (run_procedure demoEnv initState 0 false true).2
        initState).routineStates "r").inputs
      = [("x", InVal.one ⟨10, false⟩)] :=
  ⟨by decide, by decide, by decide, by decide, by decide⟩

/-- C8: the claim fails on the code.  The first `v.check()` in
`find_models` (models.py:513) is outside the try block, so the broken
composition's ValueError propagates out of the whole discovery loop: no
warning is recorded, the broken composition is not dropped, and the later
composition `beta` — although it would pass its own check — is never
reached. -/
theorem C8_check_aborts_discovery :
    ModelPluginBase.check goodComp = Except.ok () ∧
    ModelPluginBase.check badComp = Except.error () ∧
    find_models discoveryTable = ([], Except.error "broken") :=
  ⟨rfl, rfl, rfl⟩

/-- C9: registering a plugin whose name is already present in its kind's
table (build, routine, or model) fails with the duplicate-name error, and
the kind's table is left unchanged — the failure is local to that
registration. -/
theorem C9_duplicate_name (p : Plugin) (D : PluginTable)
    (h : tableHas D p.plugin_name = true) :
    register_build p D
      = Except.error (RegErr.duplicateName p.plugin_name "build") ∧
    tableAfterRegister register_build p D = D ∧
    register_routine p D
      = Except.error (RegErr.duplicateName p.plugin_name "routine") ∧
    tableAfterRegister register_routine p D = D ∧
    register_model p D
      = Except.error (RegErr.duplicateName p.plugin_name "model") ∧
    tableAfterRegister register_model p D = D := by
  have hc : ∀ kind, check_plugin p kind D
      = Except.error (RegErr.duplicateName p.plugin_name kind) := by
    intro kind
    simp [check_plugin, h]
  refine ⟨?_, ?_, ?_, ?_, ?_, ?_⟩ <;>
    simp [register_build, register_routine, register_model,
      tableAfterRegister, hc]

/-- Witness for C9: re-registering the `resnet` build plugin fails with the
duplicate-name error. -/
theorem C9_duplicate_name_witness :
    tableHas [(some "resnet", resnetPlugin)] resnetPlugin.plugin_name
      = true ∧
    register_build resnetPlugin [(some "resnet", resnetPlugin)]
      = Except.error (RegErr.duplicateName (some "resnet") "build") :=
  ⟨by decide,
   (C9_duplicate_name resnetPlugin [(some "resnet", resnetPlugin)]
     (by decide)).1⟩

/-- C10: a plugin whose `plugin_name` is `None`, not previously registered
and passing the protected-attribute and required-attribute checks, does not
fail registration on the missing name — the missing-name ValueError is
constructed but never raised (models.py:32-33) — and the plugin is stored
in its kind's table under the key `None`. -/
theorem C10_none_name_registered (p : Plugin) (D : PluginTable)
    (hname : p.plugin_name = none)
    (hfresh : tableHas D none = false)
    (hprot : ∀ k ∈ p.protectedAttrs, p.attrs k = none)
    (hreq : ∀ k ∈ p.requiredAttrs, (p.attrs k).isSome = true) :
    register_build p D = Except.ok (D ++ [(none, p)]) ∧
    register_routine p D = Except.ok (D ++ [(none, p)]) ∧
    register_model p D = Except.ok (D ++ [(none, p)]) := by
  have hc : ∀ kind, check_plugin p kind D = Except.ok () := by
    intro kind
    have h1 : tableHas D p.plugin_name = false := by rw [hname]; exact hfresh
    have h2 : p.protectedAttrs.find? (fun k => (p.attrs k).isSome) = none := by
      apply List.find?_eq_none.mpr
      intro k hk
      simp [hprot k hk]
    have h3 : p.requiredAttrs.find? (fun k => (p.attrs k).isNone) = none := by
      apply List.find?_eq_none.mpr
      intro k hk
      have := hreq k hk
      cases hx : p.attrs k with
      | none => rw [hx] at this; simp at this
      | some v => simp [hx]
    simp [check_plugin, h1, h2, h3]
  refine ⟨?_, ?_, ?_⟩ <;>
    simp [register_build, register_routine, register_model, hc, hname]

/-- Witness for C10: the nameless routine plugin registers under the key
`None` in an empty table. -/
theorem C10_none_name_registered_witness :
    namelessPlugin.plugin_name = none ∧
    tableHas [] none = false ∧
    register_build namelessPlugin [] = Except.ok [(none, namelessPlugin)] :=
  ⟨rfl, rfl,
   (C10_none_name_registered namelessPlugin [] rfl rfl (by decide)
     (by decide)).1⟩

end Cortex
